import Mathlib

/-!
Verification development for the `next-proxy` package (`src/proxy.ts`).

The embedding models the exported `nextProxyHandler` pipeline as a pure
function over an explicit JavaScript-value type.  Host effects are made
explicit parameters: the process-wide rate-limit store is threaded in and
out, `Date.now()` becomes a `now : Int` argument, and the outbound
`fetch` becomes an `Except`-valued `upstream` argument (`.error` models a
rejected fetch).  Callbacks that can throw in JavaScript are modelled as
`Except JsVal`-valued functions.  Wall-clock strings (`timestamp`,
`durationMs`) only feed log records and are not modelled.
-/

/-- Model of a JavaScript value as far as the pipeline observes it:
`undef` is `undefined` (e.g. a missing object field), the rest mirror
JSON plus booleans and arrays. -/
inductive JsVal where
  | undef
  | jnull
  | jbool (b : Bool)
  | jnum (n : Int)
  | jstr (s : String)
  | jarr (elems : List JsVal)
  | jobj (fields : List (String × JsVal))

/-- JavaScript truthiness of a value (`if (v)`): `undefined`, `null`,
`false`, `0` and `""` are falsy, every object and array is truthy. -/
def JsVal.truthy : JsVal → Bool
  | .undef => false
  | .jnull => false
  | .jbool b => b
  | .jnum n => n != 0
  | .jstr s => s != ""
  | .jarr _ => true
  | .jobj _ => true

/-- True for `undefined` and `null` (the values the `??` operator and
destructuring treat specially). -/
def JsVal.isNullish : JsVal → Bool
  | .undef => true
  | .jnull => true
  | _ => false

/-- The JavaScript test `typeof v === "object" && v !== null`: true for
objects and arrays, false for `null` and every primitive. -/
def JsVal.isObjectNonNull : JsVal → Bool
  | .jobj _ => true
  | .jarr _ => true
  | _ => false

/-- Property read `v[k]` as used on the parsed JSON payload: a field of an
object, `undefined` otherwise (reads on primitives yield `undefined` for
the field names the pipeline uses). -/
def JsVal.getField : JsVal → String → JsVal
  | .jobj fields, k => (fields.lookup k).getD .undef
  | _, _ => .undef

mutual

/-- JavaScript string coercion `String(v)` (objects print as
`[object Object]`, arrays join their elements with commas). -/
def JsVal.toStringJs : JsVal → String
  | .undef => "undefined"
  | .jnull => "null"
  | .jbool b => if b then "true" else "false"
  | .jnum n => toString n
  | .jstr s => s
  | .jarr elems => JsVal.arrToStringJs elems
  | .jobj _ => "[object Object]"

/-- Comma join used by `String` coercion of an array. -/
def JsVal.arrToStringJs : List JsVal → String
  | [] => ""
  | [x] => x.toStringJs
  | x :: y :: xs => x.toStringJs ++ "," ++ JsVal.arrToStringJs (y :: xs)

end

/-- ASCII lower-casing of one character (enough for the case-insensitive
`/^https?:\/\//i` scheme test). -/
def lowerChar (c : Char) : Char :=
  if 65 ≤ c.toNat ∧ c.toNat ≤ 90 then Char.ofNat (c.toNat + 32) else c

/-- ASCII upper-casing of one character (JS `toUpperCase` on the ASCII
method names the pipeline handles). -/
def upperChar (c : Char) : Char :=
  if 97 ≤ c.toNat ∧ c.toNat ≤ 122 then Char.ofNat (c.toNat - 32) else c

/-- ASCII `toLowerCase`. -/
def strLower (s : String) : String := String.mk (s.data.map lowerChar)

/-- ASCII `toUpperCase`. -/
def strUpperJs (s : String) : String := String.mk (s.data.map upperChar)

/-- Whether the character list `p` is an initial segment of `s`. -/
def charsBeginWith : List Char → List Char → Bool
  | [], _ => true
  | _ :: _, [] => false
  | p :: ps, c :: cs => p = c && charsBeginWith ps cs

/-- JS `s.startsWith(p)`. -/
def strBeginsWith (p s : String) : Bool := charsBeginWith p.data s.data

/-- The test `/^https?:\/\//i.test(s)`: case-insensitively, `s` starts
with `http://` or `https://`. -/
def isAbsoluteUrl (s : String) : Bool :=
  strBeginsWith "http://" (strLower s) || strBeginsWith "https://" (strLower s)

/-- JS `s.replace(/\/$/, "")`: drop one trailing slash when present. -/
def stripTrailingSlash (s : String) : String :=
  if s.data.getLast? = some '/' then String.mk s.data.dropLast else s

/-- JS `s.replace(/^\//, "")`: drop one leading slash when present. -/
def stripLeadingSlash (s : String) : String :=
  match s.data with
  | c :: rest => if c = '/' then String.mk rest else s
  | [] => s

/-- The characters JS `trim()` removes at either end (the ones that can
occur in a forwarded-for header). -/
def isWsChar (c : Char) : Bool := c = ' ' || c = '\t' || c = '\n' || c = '\r'

/-- JS `s.trim()`. -/
def jsTrim (s : String) : String :=
  String.mk (((s.data.dropWhile isWsChar).reverse.dropWhile isWsChar).reverse)

/-- The characters of `s.split(",")[0]`: everything before the first
comma (the whole string when there is none). -/
def takeUntilComma : List Char → List Char
  | [] => []
  | c :: cs => if c = ',' then [] else c :: takeUntilComma cs

/-- JS `array.join(sep)`. -/
def joinWith (sep : String) : List String → String
  | [] => ""
  | [x] => x
  | x :: y :: xs => x ++ sep ++ joinWith sep (y :: xs)

/-- JS `o || d` on a nullable string: the string when truthy (non-null,
non-empty), otherwise the default. -/
def jsOrStr (o : Option String) (d : String) : String :=
  match o with
  | some s => if s != "" then s else d
  | none => d

/-- The slice of a `NextRequest` the pipeline reads.  Header reads are
`Option`-valued (`none` models a `null` from `headers.get`);
`jsonBody = none` models a `req.json()` call that rejects. -/
structure NextRequest where
  method : String
  originHeader : Option String := none
  authHeader : Option String := none
  xForwardedFor : Option String := none
  remoteAddress : Option String := none
  jsonBody : Option JsVal := none

/-- getClientIp: first entry of `x-forwarded-for` (trimmed) when that
header is truthy, else the best-effort socket address, else `"anon"`. -/
def getClientIp (req : NextRequest) : String :=
  match req.xForwardedFor with
  | some xf =>
      if xf != "" then jsTrim (String.mk (takeUntilComma xf.data))
      else jsOrStr req.remoteAddress "anon"
  | none => jsOrStr req.remoteAddress "anon"

/-- A structured log record (`LogInfo`), minus the wall-clock fields
(`timestamp`, `durationMs`) which the host supplies and nothing reads. -/
structure LogInfo where
  type : String
  level : String
  ip : Option String := none
  method : Option String := none
  origin : Option String := none
  endpoint : Option String := none
  status : Option Nat := none
  payload : Option JsVal := none
  error : Option JsVal := none

/-- The three shapes the `allowOrigins` option can take: a single string,
a list of strings, or a predicate over origin and request. -/
inductive OriginPolicy where
  | str (s : String)
  | list (l : List String)
  | pred (f : String → NextRequest → Bool)

/-- The `inMemoryRate` option: `{ windowMs, max, key? }`. -/
structure InMemoryRateCfg where
  windowMs : Int
  max : Int
  key : Option (NextRequest → String) := none

/-- Transform input `{ method, endpoint, data }` (after the handler's
`String(...)` coercions). -/
structure ProxyRequestPayload where
  method : String
  endpoint : String
  data : JsVal

/-- A `Partial<ProxyRequestPayload>` returned by `transformRequest`:
every field optional (`none` models an absent / undefined field). -/
structure PartialPayload where
  method : Option String := none
  endpoint : Option String := none
  data : Option JsVal := none

/-- The options record accepted by `nextProxyHandler`.  Hooks that can
throw in JavaScript are `Except`-valued; guards are modelled as total
boolean predicates (their own exceptions are outside the claims). -/
structure NextProxyOptions where
  auth : Option (NextRequest → Bool) := none
  sanitize : Option (JsVal → Except JsVal JsVal) := none
  csrf : Option (NextRequest → Bool) := none
  monitor : Option (NextRequest → JsVal → Except JsVal Unit) := none
  log : Option (LogInfo → Except JsVal Unit) := none
  validate : Option (NextRequest → Bool) := none
  transformRequest :
    Option (ProxyRequestPayload → Except JsVal (Option PartialPayload)) := none
  transformResponse : Option (JsVal → Except JsVal JsVal) := none
  rateLimit : Option (NextRequest → Bool) := none
  allowOrigins : Option OriginPolicy := none
  corsMethods : Option (List String) := none
  corsHeaders : Option (List String) := none
  maskSensitiveData : Option (JsVal → Except JsVal JsVal) := none
  baseUrl : Option String := none
  onCorsDenied : Option (String → JsVal) := none
  inMemoryRate : Option InMemoryRateCfg := none

/-- Per-key window state `{ count, expires }` of the in-memory rate
limiter. -/
structure InternalRateState where
  count : Int
  expires : Int
deriving DecidableEq

/-- The process-wide `rateStore : Map<string, InternalRateState>`,
modelled as an insertion-ordered association list. -/
abbrev RateStore := List (String × InternalRateState)

/-- `Map.set`: replace the value at the key in place, or append. -/
def storeSet (s : RateStore) (k : String) (v : InternalRateState) : RateStore :=
  match s with
  | [] => [(k, v)]
  | (k', v') :: rest => if k' = k then (k, v) :: rest else (k', v') :: storeSet rest k v

/-- The rate-limit key: `cfg.key ? cfg.key(req) : getClientIp(req)`. -/
def rateKeyOf (req : NextRequest) (cfg : InMemoryRateCfg) : String :=
  match cfg.key with
  | some f => f req
  | none => getClientIp req

/-- applyInMemoryRate: fixed-window counting.  Returns the allow flag and
the updated store (the handler's module-level map, made explicit). -/
def applyInMemoryRate (req : NextRequest) (cfg : InMemoryRateCfg)
    (store : RateStore) (now : Int) : Bool × RateStore :=
  let key := rateKeyOf req cfg
  match store.lookup key with
  | none => (true, storeSet store key ⟨1, now + cfg.windowMs⟩)
  | some current =>
      if current.expires < now then
        (true, storeSet store key ⟨1, now + cfg.windowMs⟩)
      else if current.count ≥ cfg.max then (false, store)
      else (true, storeSet store key ⟨current.count + 1, current.expires⟩)

/-- isOriginAllowed.  The leading `if (!options.allowOrigins) return true`
is JavaScript truthiness, so a configured empty-string policy also takes
that branch. -/
def isOriginAllowed (options : NextProxyOptions) (origin : String)
    (req : NextRequest) : Bool :=
  match options.allowOrigins with
  | none => true
  | some (.str s) =>
      if s = "" then true
      else if s = "*" then true
      else origin = s
  | some (.list l) =>
      if l.contains "*" then true else l.contains origin
  | some (.pred f) => f origin req

/-- Truthiness of `options.allowOrigins` (used for the CORS headers on
the success response): false for absent and for the empty string. -/
def allowOriginsTruthy : Option OriginPolicy → Bool
  | none => false
  | some (.str s) => s != ""
  | some _ => true

/-- Value of the `Access-Control-Allow-Headers` header:
`(corsHeaders ?? ["Content-Type", "Authorization"]).join(", ")`. -/
def corsAllowHeadersValue (options : NextProxyOptions) : String :=
  joinWith ", " (options.corsHeaders.getD ["Content-Type", "Authorization"])

/-- Value of the `Access-Control-Allow-Methods` header:
`(corsMethods ?? ["POST", "OPTIONS"]).join(",")`. -/
def corsAllowMethodsValue (options : NextProxyOptions) : String :=
  joinWith "," (options.corsMethods.getD ["POST", "OPTIONS"])

/-- Denial body: `options.onCorsDenied?.(origin) || {error: "Origin not
allowed"}` (a falsy hook result also falls back to the default). -/
def corsDeniedBody (options : NextProxyOptions) (origin : String) : JsVal :=
  match options.onCorsDenied with
  | some f => if (f origin).truthy then f origin else .jobj [("error", .jstr "Origin not allowed")]
  | none => .jobj [("error", .jstr "Origin not allowed")]

/-- The bodyless methods: `WITHOUT_BODY = ["GET", "HEAD"]`. -/
def WITHOUT_BODY : List String := ["GET", "HEAD"]

/-- The outbound `fetch` call the handler builds: uppercased method,
resolved endpoint, normalized `Authorization` header, and the JSON body
value for non-bodyless methods. -/
structure OutboundRequest where
  method : String
  endpoint : String
  authHeader : Option String := none
  body : Option JsVal := none

/-- Outcome of the JSON → text → binary fallback parse of the upstream
body: which of the three attempts succeeded, and with what. -/
inductive BodyParse where
  | json (v : JsVal)
  | text (t : String)
  | binary (byteLength : Nat)

/-- The parsed upstream body: a JSON value, a text string, or the binary
descriptor object. -/
def parseUpstreamBody : BodyParse → JsVal
  | .json v => v
  | .text t => .jstr t
  | .binary n => .jobj [("message", .jstr "Unprocessable response (binary)"), ("length", .jnum n)]

/-- The upstream response as far as the handler reads it. -/
structure UpstreamResponse where
  status : Nat
  body : BodyParse

/-- `Response.ok`: status in the 200-299 range. -/
def UpstreamResponse.isOk (u : UpstreamResponse) : Bool :=
  200 ≤ u.status && u.status < 300

/-- A response returned to the inbound caller: status, JSON body (`none`
for the body-less 204 preflight reply) and the explicitly set headers. -/
structure ProxyResponse where
  status : Nat
  body : Option JsVal := none
  headers : List (String × String) := []

/-- `{error: msg}` bodies used by the guard and validation failures. -/
def jsonErrorBody (msg : String) : JsVal := .jobj [("error", .jstr msg)]

/-- How one handler invocation ends: with a response, or with an
exception escaping the handler. -/
inductive HandlerOutcome where
  | response (r : ProxyResponse)
  | raised (e : JsVal)

/-- One handler invocation: its outcome, the rate store it leaves behind,
the outbound call it issued (if it reached `fetch`), and the log records
delivered to the configured `log` callback, in order. -/
structure HandlerRun where
  outcome : HandlerOutcome
  store : RateStore
  fetched : Option OutboundRequest := none
  events : List LogInfo := []

/-- Deliver a record to the log callback when one is configured.  Returns
the records delivered and the exception the callback threw, if any. -/
def logEmit (log : Option (LogInfo → Except JsVal Unit)) (e : LogInfo) :
    List LogInfo × Option JsVal :=
  match log with
  | none => ([], none)
  | some f => ([e], match f e with | .ok _ => none | .error err => some err)

/-- The error-level record logged when the auth or csrf guard denies. -/
def guardFailEventInfo (req : NextRequest) (origin : String) (st : Nat)
    (msg : String) : LogInfo :=
  { type := "error", level := "error", ip := some (getClientIp req),
    method := some req.method, origin := some origin, status := some st,
    error := some (.jstr msg) }

/-- The `request`-kind record logged before parsing begins. -/
def requestEventInfo (req : NextRequest) (origin : String) : LogInfo :=
  { type := "request", level := "info", ip := some (getClientIp req),
    method := some req.method, origin := some origin }

/-- The `response`-kind record logged after shaping the upstream body. -/
def responseEventInfo (req : NextRequest) (origin methodStr endpointStr : String)
    (st : Nat) (payload : JsVal) : LogInfo :=
  { type := "response", level := "info", ip := some (getClientIp req),
    method := some methodStr, origin := some origin,
    endpoint := some endpointStr, status := some st, payload := some payload }

/-- The `error`-kind record logged by the catch block. -/
def errorEventInfo (req : NextRequest) (origin : String) (e : JsVal) : LogInfo :=
  { type := "error", level := "error", ip := some (getClientIp req),
    method := some req.method, origin := some origin, status := some 500,
    error := some e }

/-- The 500 body detail: `error || String(error)`. -/
def jsErrOr (e : JsVal) : JsVal := if e.truthy then e else .jstr e.toStringJs

/-- Lines 276-341 of the handler: read the token, parse the inbound body
(`{}` on failure), apply `transformRequest` with its `String(...)`
coercions, check `!method || !endpoint`, resolve a relative endpoint
against `baseUrl`, apply `sanitize` and `maskSensitiveData`, and build
the outbound call.  `.inl` is an early 400 response, `.error` an
exception headed for the catch block. -/
def buildOutbound (options : NextProxyOptions) (req : NextRequest) :
    Except JsVal (ProxyResponse ⊕ OutboundRequest) :=
  let token := req.authHeader
  let payload := req.jsonBody.getD (.jobj [])
  if payload.isNullish then
    -- `let { method, endpoint, data } = payload` throws on null/undefined
    .error (.jstr "TypeError: cannot destructure payload")
  else
    let method0 := payload.getField "method"
    let endpoint0 := payload.getField "endpoint"
    let data0 := payload.getField "data"
    let step1 : Except JsVal (JsVal × JsVal × JsVal) :=
      match options.transformRequest with
      | none => .ok (method0, endpoint0, data0)
      | some tr =>
          match tr { method := method0.toStringJs, endpoint := endpoint0.toStringJs,
                     data := if data0.isObjectNonNull then data0 else .jobj [] } with
          | .error e => .error e
          | .ok t =>
              let t := t.getD {}
              .ok (.jstr (t.method.getD method0.toStringJs),
                   .jstr (t.endpoint.getD endpoint0.toStringJs),
                   t.data.getD data0)
    match step1 with
    | .error e => .error e
    | .ok (method1, endpoint1, data1) =>
        if !method1.truthy || !endpoint1.truthy then
          .ok (.inl { status := 400, body := some (jsonErrorBody "Missing method or endpoint") })
        else
          let epStr0 := endpoint1.toStringJs
          let resolved : ProxyResponse ⊕ String :=
            if !isAbsoluteUrl epStr0 then
              if jsOrStr options.baseUrl "" = "" then
                .inl { status := 400, body := some (jsonErrorBody "Relative endpoint without baseUrl") }
              else
                .inr (stripTrailingSlash (options.baseUrl.getD "") ++ "/" ++ stripLeadingSlash epStr0)
            else .inr epStr0
          match resolved with
          | .inl resp => .ok (.inl resp)
          | .inr endpointStr =>
              let sanitized : Except JsVal JsVal :=
                match options.sanitize with
                | none => .ok data1
                | some f => f data1
              match sanitized with
              | .error e => .error e
              | .ok data2 =>
                  let masked : Except JsVal JsVal :=
                    match options.maskSensitiveData with
                    | none => .ok data2
                    | some f => f data2
                  match masked with
                  | .error e => .error e
                  | .ok data3 =>
                      let upperMethod := strUpperJs method1.toStringJs
                      let authH : Option String :=
                        match token with
                        | some t =>
                            if t != "" then
                              some (if strBeginsWith "Bearer" t then t else "Bearer " ++ t)
                            else none
                        | none => none
                      let outBody : Option JsVal :=
                        if WITHOUT_BODY.contains upperMethod then none
                        else some (if data3.isNullish then .jobj [] else data3)
                      .ok (.inr { method := upperMethod, endpoint := endpointStr,
                                  authHeader := authH, body := outBody })

/-- The try-block tail after a successful `fetch` (lines 348-405): parse
the body through the JSON → text → binary fallback, conditionally apply
`transformResponse`, log the `response` event, call `monitor`, and build
the reply (upstream status on failure, 200 plus CORS headers on
success). -/
def shapeAndRespond (options : NextProxyOptions) (req : NextRequest)
    (origin : String) (outReq : OutboundRequest) (u : UpstreamResponse) :
    Except JsVal ProxyResponse × List LogInfo :=
  let parsed := parseUpstreamBody u.body
  let shaped : Except JsVal JsVal :=
    match options.transformResponse with
    | some tf => if parsed.isObjectNonNull then tf parsed else .ok parsed
    | none => .ok parsed
  match shaped with
  | .error e => (.error e, [])
  | .ok responseV =>
      match logEmit options.log
          (responseEventInfo req origin (outReq.method) (outReq.endpoint) u.status responseV) with
      | (evs, some e) => (.error e, evs)
      | (evs, none) =>
          let monitored : Except JsVal Unit :=
            match options.monitor with
            | some m => m req responseV
            | none => .ok ()
          match monitored with
          | .error e => (.error e, evs)
          | .ok _ =>
              if !u.isOk then
                (.ok { status := u.status, body := some responseV }, evs)
              else
                (.ok { status := 200, body := some responseV,
                       headers :=
                         if allowOriginsTruthy options.allowOrigins then
                           [("Access-Control-Allow-Origin", origin),
                            ("Access-Control-Allow-Headers", corsAllowHeadersValue options),
                            ("Access-Control-Allow-Methods", corsAllowMethodsValue options)]
                         else [] }, evs)

/-- Result of the try block: the response or escaped exception, the
outbound call if `fetch` was reached, and the log records delivered
inside the block. -/
structure TryOut where
  result : Except JsVal ProxyResponse
  fetched : Option OutboundRequest := none
  events : List LogInfo := []

/-- The whole try block (lines 275-405): build the outbound call, issue
it (`upstream` is the world's answer; `.error` models a rejected fetch),
then shape and respond. -/
def handlerTryBlock (options : NextProxyOptions) (req : NextRequest)
    (origin : String) (upstream : Except JsVal UpstreamResponse) : TryOut :=
  match buildOutbound options req with
  | .error e => { result := .error e }
  | .ok (.inl resp) => { result := .ok resp }
  | .ok (.inr outReq) =>
      match upstream with
      | .error e => { result := .error e, fetched := some outReq }
      | .ok u =>
          match shapeAndRespond options req origin outReq u with
          | (res, evs) => { result := res, fetched := some outReq, events := evs }

/-- The pipeline from the external rate-limit guard on (lines 251-426):
`rateLimit` guard, `validate` guard, the `request` log event — which sits
before the try block, so a throwing log callback here escapes — then the
try block and the catch block (error event plus the 500 reply). -/
def handlerAfterRate (options : NextProxyOptions) (req : NextRequest)
    (origin : String) (store : RateStore)
    (upstream : Except JsVal UpstreamResponse) : HandlerRun :=
  if (match options.rateLimit with | some rl => !rl req | none => false) then
    { outcome := .response { status := 429, body := some (jsonErrorBody "Rate limit exceeded") },
      store := store }
  else if (match options.validate with | some v => !v req | none => false) then
    { outcome := .response { status := 401, body := some (jsonErrorBody "Unauthorized") },
      store := store }
  else
    match logEmit options.log (requestEventInfo req origin) with
    | (evs1, some e) => { outcome := .raised e, store := store, events := evs1 }
    | (evs1, none) =>
        let t := handlerTryBlock options req origin upstream
        match t.result with
        | .ok resp =>
            { outcome := .response resp, store := store, fetched := t.fetched,
              events := evs1 ++ t.events }
        | .error err =>
            match logEmit options.log (errorEventInfo req origin err) with
            | (evs2, some e2) =>
                { outcome := .raised e2, store := store, fetched := t.fetched,
                  events := evs1 ++ t.events ++ evs2 }
            | (evs2, none) =>
                { outcome := .response
                    { status := 500, body := some (.jobj [("error", jsErrOr err)]) },
                  store := store, fetched := t.fetched,
                  events := evs1 ++ t.events ++ evs2 }

/-- nextProxyHandler: the full pipeline.  Guard order as in the source:
auth (401), csrf (403), the OPTIONS preflight branch, the origin guard
(403), the in-memory rate guard (429, threading the store), then
`handlerAfterRate`. -/
def nextProxyHandler (options : NextProxyOptions) (req : NextRequest)
    (store : RateStore) (now : Int)
    (upstream : Except JsVal UpstreamResponse) : HandlerRun :=
  let origin := jsOrStr req.originHeader ""
  if (match options.auth with | some a => !a req | none => false) then
    match logEmit options.log (guardFailEventInfo req origin 401 "Unauthorized (auth)") with
    | (evs, some e) => { outcome := .raised e, store := store, events := evs }
    | (evs, none) =>
        { outcome := .response { status := 401, body := some (jsonErrorBody "Unauthorized (auth)") },
          store := store, events := evs }
  else if (match options.csrf with | some c => !c req | none => false) then
    match logEmit options.log (guardFailEventInfo req origin 403 "Forbidden (csrf/xss)") with
    | (evs, some e) => { outcome := .raised e, store := store, events := evs }
    | (evs, none) =>
        { outcome := .response { status := 403, body := some (jsonErrorBody "Forbidden (csrf/xss)") },
          store := store, events := evs }
  else if req.method = "OPTIONS" then
    if !isOriginAllowed options origin req then
      { outcome := .response
          { status := 403, body := some (corsDeniedBody options origin),
            headers := [("Content-Type", "application/json"),
                        ("Access-Control-Allow-Origin", origin),
                        ("Access-Control-Allow-Headers", corsAllowHeadersValue options),
                        ("Access-Control-Allow-Methods", corsAllowMethodsValue options)] },
        store := store }
    else
      { outcome := .response
          { status := 204, body := none,
            headers := [("Access-Control-Allow-Origin", origin),
                        ("Access-Control-Allow-Headers", corsAllowHeadersValue options),
                        ("Access-Control-Allow-Methods", corsAllowMethodsValue options)] },
        store := store }
  else if !isOriginAllowed options origin req then
    { outcome := .response { status := 403, body := some (corsDeniedBody options origin) },
      store := store }
  else
    match options.inMemoryRate with
    | some cfg =>
        let r := applyInMemoryRate req cfg store now
        if !r.1 then
          { outcome := .response { status := 429, body := some (jsonErrorBody "Rate limit exceeded") },
            store := r.2 }
        else handlerAfterRate options req origin r.2 upstream
    | none => handlerAfterRate options req origin store upstream

/-- Iterated rate-limiter runs: the store after `n` calls made against
configuration `cfg`, the `i`-th call by request `(calls i).1` at time
`(calls i).2`, starting from the empty store. -/
def rateRuns (cfg : InMemoryRateCfg) (calls : Nat → NextRequest × Int) :
    Nat → RateStore
  | 0 => []
  | n + 1 => (applyInMemoryRate (calls n).1 cfg (rateRuns cfg calls n) (calls n).2).2

/-! Concrete fixtures used by witnesses and counterexamples below. -/

/-! Shared concrete fixtures used by witnesses and counterexamples. -/

/-- A plain POST request with an empty JSON body object. -/
def reqPlain : NextRequest := { method := "POST", jsonBody := some (.jobj []) }

/-- Rate configuration with a constant key function. -/
def cfgK (w m : Int) : InMemoryRateCfg := { windowMs := w, max := m, key := some (fun _ => "k") }

/-- Options exhibiting the C1 divergence: a transformRequest hook that
returns an empty partial override, plus a configured baseUrl. -/
def c1Options : NextProxyOptions :=
  { transformRequest := some (fun _ => .ok (some {})),
    baseUrl := some "https://api.example.com" }

/-- Fixtures for the preflight counterexample. -/
def pfOptions : NextProxyOptions := { allowOrigins := some (.str "https://ok.com") }

/-- Preflight request from an origin the policy does not match. -/
def pfReq : NextRequest := { method := "OPTIONS", originHeader := some "https://evil.com" }

/-- Options for the C9 witness: exact-origin policy plus an in-memory
rate limit, to exhibit that the store is not consulted. -/
def c9Options : NextProxyOptions :=
  { allowOrigins := some (.str "https://a.com"), inMemoryRate := some (cfgK 5 1) }

/-- Options for the C5 witness: only a baseUrl configured. -/
def c5Options : NextProxyOptions := { baseUrl := some "https://api.example.com" }

/-- Inbound call for the C5 witness: `{method: "GET", endpoint: "/todos/1"}`. -/
def c5Req : NextRequest :=
  { method := "POST",
    jsonBody := some (.jobj [("method", .jstr "GET"), ("endpoint", .jstr "/todos/1")]) }

/-- The body of the response an invocation ended with (`none` when the
handler raised or returned a body-less reply). -/
def responseBodyOf : HandlerOutcome → Option JsVal
  | .response r => r.body
  | .raised _ => none

/-- Whether the invocation ended with an exception escaping the
handler. -/
def HandlerOutcome.didRaise : HandlerOutcome → Bool
  | .raised _ => true
  | .response _ => false

/-- Options exhibiting the C7 divergence: only a transformResponse
hook. -/
def c7Options : NextProxyOptions :=
  { transformResponse := some (fun _ => .ok (.jobj [("tag", .jnum 1)])) }

/-- Inbound call with a valid absolute endpoint, for C7 and C8. -/
def c7Req : NextRequest :=
  { method := "POST",
    jsonBody := some (.jobj [("method", .jstr "GET"),
                             ("endpoint", .jstr "https://u.example/x")]) }

/-- Options whose log callback throws on the request event. -/
def c8Options : NextProxyOptions :=
  { log := some (fun i => if i.type = "request" then .error (.jstr "boom") else .ok ()) }

/-! Helper lemmas about the store and strings. -/

theorem lookup_storeSet_self (s : RateStore) (k : String) (v : InternalRateState) :
    (storeSet s k v).lookup k = some v := by
  induction s with
  | nil => simp [storeSet, List.lookup]
  | cons hd tl ih =>
      obtain ⟨k', v'⟩ := hd
      by_cases h : k' = k
      · subst h
        simp [storeSet, List.lookup]
      · have hne : (k == k') = false := beq_eq_false_iff_ne.mpr (Ne.symm h)
        simp [storeSet, h, List.lookup, hne, ih]

theorem lookup_storeSet_ne (s : RateStore) (k k' : String) (v : InternalRateState)
    (h : k' ≠ k) : (storeSet s k v).lookup k' = s.lookup k' := by
  have hne : (k' == k) = false := beq_eq_false_iff_ne.mpr h
  induction s with
  | nil => simp [storeSet, List.lookup, hne]
  | cons hd tl ih =>
      obtain ⟨k0, v0⟩ := hd
      by_cases h0 : k0 = k
      · subst h0
        simp [storeSet, List.lookup, hne]
      · simp [storeSet, h0, List.lookup, ih]

theorem strExt (a b : String) (h : a.data = b.data) : a = b := by
  cases a; cases b; exact congrArg String.mk h

/-- C2: a single call of `applyInMemoryRate` is exactly fixed-window
counting: an absent or expired entry is reinitialized to
`{count := 1, expires := now + windowMs}` and the call allowed; otherwise
`count ≥ max` denies leaving the store unchanged, and `count < max`
increments the count and allows. -/
theorem applyInMemoryRate_fixed_window (req : NextRequest) (cfg : InMemoryRateCfg)
    (store : RateStore) (now : Int) :
    (store.lookup (rateKeyOf req cfg) = none →
      applyInMemoryRate req cfg store now =
        (true, storeSet store (rateKeyOf req cfg) ⟨1, now + cfg.windowMs⟩)) ∧
    (∀ c, store.lookup (rateKeyOf req cfg) = some c → c.expires < now →
      applyInMemoryRate req cfg store now =
        (true, storeSet store (rateKeyOf req cfg) ⟨1, now + cfg.windowMs⟩)) ∧
    (∀ c, store.lookup (rateKeyOf req cfg) = some c → now ≤ c.expires →
      cfg.max ≤ c.count →
      applyInMemoryRate req cfg store now = (false, store)) ∧
    (∀ c, store.lookup (rateKeyOf req cfg) = some c → now ≤ c.expires →
      c.count < cfg.max →
      applyInMemoryRate req cfg store now =
        (true, storeSet store (rateKeyOf req cfg) ⟨c.count + 1, c.expires⟩)) := by
  refine ⟨fun h => ?_, fun c h hexp => ?_, fun c h hle hmax => ?_, fun c h hle hlt => ?_⟩
  · simp [applyInMemoryRate, h]
  · simp [applyInMemoryRate, h, hexp]
  · simp [applyInMemoryRate, h, not_lt.mpr hle, ge_iff_le, hmax]
  · simp [applyInMemoryRate, h, not_lt.mpr hle, ge_iff_le, not_le.mpr hlt]

/-- Witness for C2: all four branches at concrete inputs. -/
theorem applyInMemoryRate_fixed_window_witness :
    applyInMemoryRate reqPlain (cfgK 1000 2) [] 0 = (true, [("k", ⟨1, 1000⟩)]) ∧
    applyInMemoryRate reqPlain (cfgK 1000 2) [("k", ⟨2, 50⟩)] 60 = (true, [("k", ⟨1, 1060⟩)]) ∧
    applyInMemoryRate reqPlain (cfgK 1000 2) [("k", ⟨2, 50⟩)] 40 = (false, [("k", ⟨2, 50⟩)]) ∧
    applyInMemoryRate reqPlain (cfgK 1000 2) [("k", ⟨1, 50⟩)] 40 = (true, [("k", ⟨2, 50⟩)]) := by
  refine ⟨?_, ?_, ?_, ?_⟩
  · exact (applyInMemoryRate_fixed_window reqPlain (cfgK 1000 2) [] 0).1 rfl
  · exact (applyInMemoryRate_fixed_window reqPlain (cfgK 1000 2) [("k", ⟨2, 50⟩)] 60).2.1
      ⟨2, 50⟩ rfl (by decide)
  · exact (applyInMemoryRate_fixed_window reqPlain (cfgK 1000 2) [("k", ⟨2, 50⟩)] 40).2.2.1
      ⟨2, 50⟩ rfl (by decide) (by decide)
  · exact (applyInMemoryRate_fixed_window reqPlain (cfgK 1000 2) [("k", ⟨1, 50⟩)] 40).2.2.2
      ⟨1, 50⟩ rfl (by decide) (by decide)

/-- C10: the (re)initialization branch of the rate check allows the call
and sets the count to 1 without consulting `max` (in particular for
`max ≤ 0`); and in any run of calls against a fixed configuration, every
stored count stays between 1 and `max 1 cfg.max`. -/
theorem rate_reinit_ignores_max :
    (∀ req cfg store now, cfg.max ≤ 0 →
      (store.lookup (rateKeyOf req cfg) = none ∨
        ∃ c, store.lookup (rateKeyOf req cfg) = some c ∧ c.expires < now) →
      applyInMemoryRate req cfg store now =
        (true, storeSet store (rateKeyOf req cfg) ⟨1, now + cfg.windowMs⟩)) ∧
    (∀ cfg calls n k c, (rateRuns cfg calls n).lookup k = some c →
      1 ≤ c.count ∧ c.count ≤ max 1 cfg.max) := by
  constructor
  · intro req cfg store now _ habs
    rcases habs with h | ⟨c, h, hexp⟩
    · simp [applyInMemoryRate, h]
    · simp [applyInMemoryRate, h, hexp]
  · intro cfg calls n
    induction n with
    | zero => intro k c h; simp [rateRuns, List.lookup] at h
    | succ n ih =>
        intro k c h
        simp only [rateRuns, applyInMemoryRate] at h
        rcases hl : (rateRuns cfg calls n).lookup (rateKeyOf (calls n).1 cfg) with _ | cur
        · rw [hl] at h
          simp only at h
          by_cases hk : k = rateKeyOf (calls n).1 cfg
          · subst hk
            rw [lookup_storeSet_self] at h
            cases h
            exact ⟨le_refl 1, le_max_left 1 cfg.max⟩
          · rw [lookup_storeSet_ne _ _ _ _ hk] at h
            exact ih k c h
        · rw [hl] at h
          simp only at h
          by_cases hexp : cur.expires < (calls n).2
          · rw [if_pos hexp] at h
            by_cases hk : k = rateKeyOf (calls n).1 cfg
            · subst hk
              rw [lookup_storeSet_self] at h
              cases h
              exact ⟨le_refl 1, le_max_left 1 cfg.max⟩
            · rw [lookup_storeSet_ne _ _ _ _ hk] at h
              exact ih k c h
          · rw [if_neg hexp] at h
            by_cases hge : cur.count ≥ cfg.max
            · rw [if_pos hge] at h
              exact ih k c h
            · rw [if_neg hge] at h
              by_cases hk : k = rateKeyOf (calls n).1 cfg
              · subst hk
                rw [lookup_storeSet_self] at h
                cases h
                have hcur := ih _ cur hl
                constructor
                · show (1 : Int) ≤ cur.count + 1
                  omega
                · show cur.count + 1 ≤ max 1 cfg.max
                  have h1 : cur.count + 1 ≤ cfg.max := by omega
                  exact le_trans h1 (le_max_right 1 cfg.max)
              · rw [lookup_storeSet_ne _ _ _ _ hk] at h
                exact ih k c h

/-- Witness for C10: a configuration with `max = 0` still allows the
first call of a window, and the stored count after one call is within
the claimed bounds. -/
theorem rate_reinit_ignores_max_witness :
    applyInMemoryRate reqPlain (cfgK 10 0) [] 0 =
      (true, storeSet [] (rateKeyOf reqPlain (cfgK 10 0)) ⟨1, 0 + (cfgK 10 0).windowMs⟩) ∧
    (1 ≤ (1 : Int) ∧ (1 : Int) ≤ max 1 (cfgK 10 0).max) := by
  constructor
  · exact rate_reinit_ignores_max.1 reqPlain (cfgK 10 0) [] 0 (by decide) (Or.inl rfl)
  · have h := rate_reinit_ignores_max.2 (cfgK 10 0) (fun _ => (reqPlain, 0)) 1 "k" ⟨1, 10⟩ rfl
    exact h

/-- C3 counterexample: the empty string is a single non-wildcard string
policy, yet the check allows an origin different from it (the leading
JS-truthiness test treats the empty-string policy as unconfigured). -/
theorem originPolicy_empty_string_allows_all :
    isOriginAllowed { allowOrigins := some (.str "") } "https://attacker.example" reqPlain = true ∧
    "https://attacker.example" ≠ "" := ⟨rfl, by decide⟩

/-- C3 (amended): precedence of the origin check. No policy configured:
allow all. The wildcard string: allow all. The empty string (JS-falsy,
treated as unconfigured): allow all. Any other single string: allowed iff
exact match. A list: allowed iff it contains the wildcard or the origin.
A predicate: exactly the predicate's verdict on origin and request. -/
theorem isOriginAllowed_precedence (options : NextProxyOptions) :
    (options.allowOrigins = none → ∀ o r, isOriginAllowed options o r = true) ∧
    (options.allowOrigins = some (.str "*") → ∀ o r, isOriginAllowed options o r = true) ∧
    (options.allowOrigins = some (.str "") → ∀ o r, isOriginAllowed options o r = true) ∧
    (∀ s, options.allowOrigins = some (.str s) → s ≠ "*" → s ≠ "" →
      ∀ o r, (isOriginAllowed options o r = true ↔ o = s)) ∧
    (∀ l, options.allowOrigins = some (.list l) → ∀ o r,
      (isOriginAllowed options o r = true ↔
        (l.contains "*" = true ∨ l.contains o = true))) ∧
    (∀ f, options.allowOrigins = some (.pred f) → ∀ o r,
      isOriginAllowed options o r = f o r) := by
  refine ⟨?_, ?_, ?_, ?_, ?_, ?_⟩
  · intro h o r; simp [isOriginAllowed, h]
  · intro h o r; simp [isOriginAllowed, h]
  · intro h o r; simp [isOriginAllowed, h]
  · intro s h hs1 hs2 o r
    simp [isOriginAllowed, h, hs1, hs2]
  · intro l h o r
    by_cases hw : l.contains "*"
    · simp [isOriginAllowed, h, hw]
    · simp [isOriginAllowed, h, hw]
  · intro f h o r; simp [isOriginAllowed, h]

/-- Witness for C3: an exact-match policy admits the matching origin, and
a list policy without wildcard rejects a non-member. -/
theorem isOriginAllowed_precedence_witness :
    isOriginAllowed { allowOrigins := some (.str "https://a.com") } "https://a.com" reqPlain = true ∧
    isOriginAllowed { allowOrigins := some (.list ["https://b.com"]) } "https://c.com" reqPlain = false := by
  constructor
  · exact ((isOriginAllowed_precedence
      { allowOrigins := some (.str "https://a.com") }).2.2.2.1 "https://a.com" rfl
        (by decide) (by decide) "https://a.com" reqPlain).mpr rfl
  · have h := (isOriginAllowed_precedence
      { allowOrigins := some (.list ["https://b.com"]) }).2.2.2.2.1 ["https://b.com"] rfl
        "https://c.com" reqPlain
    rcases Bool.eq_false_or_eq_true
        (isOriginAllowed { allowOrigins := some (.list ["https://b.com"]) } "https://c.com" reqPlain)
      with ht | hf
    · exact absurd (h.mp ht) (by decide)
    · exact hf

/-- C1 (code bug): with a transformRequest hook configured and the
inbound body lacking both method and endpoint, the handler's
String(undefined) coercion turns both into the truthy string "undefined",
so the Missing-method-or-endpoint 400 branch is skipped: the handler
issues the outbound fetch with method "UNDEFINED" to
baseUrl ++ "/undefined" and returns the upstream's reply. -/
theorem transform_missing_fields_forwards :
    (nextProxyHandler c1Options reqPlain [] 0 (.ok ⟨200, .json (.jobj [])⟩)).fetched =
      some { method := "UNDEFINED", endpoint := "https://api.example.com/undefined",
             authHeader := none, body := some (.jobj []) } ∧
    (nextProxyHandler c1Options reqPlain [] 0 (.ok ⟨200, .json (.jobj [])⟩)).outcome =
      .response { status := 200, body := some (.jobj []) } := ⟨rfl, rfl⟩

/-! Helper lemmas for evaluating the origin check under specific
policies (shared by the handler-level theorems below). -/

theorem origin_str_allowed_iff (options : NextProxyOptions) (s : String)
    (h : options.allowOrigins = some (.str s)) (hs1 : s ≠ "*") (hs2 : s ≠ "")
    (o : String) (r : NextRequest) :
    isOriginAllowed options o r = true ↔ o = s := by
  simp [isOriginAllowed, h, hs1, hs2]

theorem origin_list_allowed_iff (options : NextProxyOptions) (l : List String)
    (h : options.allowOrigins = some (.list l)) (o : String) (r : NextRequest) :
    isOriginAllowed options o r = true ↔
      (l.contains "*" = true ∨ l.contains o = true) := by
  by_cases hw : l.contains "*"
  · simp [isOriginAllowed, h, hw]
  · simp [isOriginAllowed, h, hw]

theorem origin_str_denied (options : NextProxyOptions) (s : String)
    (h : options.allowOrigins = some (.str s)) (hs1 : s ≠ "*") (hs2 : s ≠ "")
    (o : String) (r : NextRequest) (ho : o ≠ s) :
    isOriginAllowed options o r = false := by
  cases hb : isOriginAllowed options o r
  · rfl
  · exact absurd ((origin_str_allowed_iff options s h hs1 hs2 o r).mp hb) ho

/-- C4 counterexample: under an exact-origin policy, the denied preflight
response carries Access-Control-Allow-Origin set to the denied,
non-matching origin itself — it grants that origin at the header level,
contrary to the claim that the response is no more permissive than the
configured policy. -/
theorem preflight_denial_echoes_origin :
    (nextProxyHandler pfOptions pfReq [] 0 (.error .undef)).outcome =
      .response { status := 403,
                  body := some (.jobj [("error", .jstr "Origin not allowed")]),
                  headers := [("Content-Type", "application/json"),
                              ("Access-Control-Allow-Origin", "https://evil.com"),
                              ("Access-Control-Allow-Headers", "Content-Type, Authorization"),
                              ("Access-Control-Allow-Methods", "POST,OPTIONS")] } ∧
    "https://evil.com" ≠ "https://ok.com" := ⟨rfl, by decide⟩

/-- C4 (amended): for every exact-origin policy (a single string, neither
wildcard nor empty) and every preflight call whose auth and csrf guards
pass: a non-matching origin yields 403 with the denial body, and the
response's Access-Control-Allow-Origin echoes the denied origin next to
the configured allow-methods and allow-headers lists (the denial is NOT
less permissive than the policy); a matching origin yields 204 with no
body; both responses carry the same configured allow-methods and
allow-headers values; neither issues an outbound call or touches the
rate store. -/
theorem preflight_exact_policy (options : NextProxyOptions) (req : NextRequest)
    (s : String) (store : RateStore) (now : Int)
    (upstream : Except JsVal UpstreamResponse)
    (hpol : options.allowOrigins = some (.str s)) (hs1 : s ≠ "*") (hs2 : s ≠ "")
    (hauth : ∀ a, options.auth = some a → a req = true)
    (hcsrf : ∀ c, options.csrf = some c → c req = true)
    (hm : req.method = "OPTIONS") :
    (jsOrStr req.originHeader "" ≠ s →
      nextProxyHandler options req store now upstream =
        { outcome := .response
            { status := 403,
              body := some (corsDeniedBody options (jsOrStr req.originHeader "")),
              headers := [("Content-Type", "application/json"),
                          ("Access-Control-Allow-Origin", jsOrStr req.originHeader ""),
                          ("Access-Control-Allow-Headers", corsAllowHeadersValue options),
                          ("Access-Control-Allow-Methods", corsAllowMethodsValue options)] },
          store := store }) ∧
    (jsOrStr req.originHeader "" = s →
      nextProxyHandler options req store now upstream =
        { outcome := .response
            { status := 204, body := none,
              headers := [("Access-Control-Allow-Origin", jsOrStr req.originHeader ""),
                          ("Access-Control-Allow-Headers", corsAllowHeadersValue options),
                          ("Access-Control-Allow-Methods", corsAllowMethodsValue options)] },
          store := store }) := by
  constructor
  · intro ho
    have hio := origin_str_denied options s hpol hs1 hs2 (jsOrStr req.originHeader "") req ho
    rcases hA : options.auth with _ | a
    · rcases hC : options.csrf with _ | c
      · simp [nextProxyHandler, hA, hC, hm, hio]
      · simp [nextProxyHandler, hA, hC, hcsrf c hC, hm, hio]
    · rcases hC : options.csrf with _ | c
      · simp [nextProxyHandler, hA, hauth a hA, hC, hm, hio]
      · simp [nextProxyHandler, hA, hauth a hA, hC, hcsrf c hC, hm, hio]
  · intro ho
    have hio : isOriginAllowed options (jsOrStr req.originHeader "") req = true :=
      (origin_str_allowed_iff options s hpol hs1 hs2 (jsOrStr req.originHeader "") req).mpr ho
    rcases hA : options.auth with _ | a
    · rcases hC : options.csrf with _ | c
      · simp [nextProxyHandler, hA, hC, hm, hio]
      · simp [nextProxyHandler, hA, hC, hcsrf c hC, hm, hio]
    · rcases hC : options.csrf with _ | c
      · simp [nextProxyHandler, hA, hauth a hA, hC, hm, hio]
      · simp [nextProxyHandler, hA, hauth a hA, hC, hcsrf c hC, hm, hio]

/-- Witness for C4: both branches at concrete inputs. -/
theorem preflight_exact_policy_witness :
    nextProxyHandler pfOptions pfReq [] 0 (.error .undef) =
      { outcome := .response
          { status := 403,
            body := some (corsDeniedBody pfOptions "https://evil.com"),
            headers := [("Content-Type", "application/json"),
                        ("Access-Control-Allow-Origin", "https://evil.com"),
                        ("Access-Control-Allow-Headers", corsAllowHeadersValue pfOptions),
                        ("Access-Control-Allow-Methods", corsAllowMethodsValue pfOptions)] },
        store := [] } ∧
    nextProxyHandler pfOptions { method := "OPTIONS", originHeader := some "https://ok.com" }
        [] 0 (.error .undef) =
      { outcome := .response
          { status := 204, body := none,
            headers := [("Access-Control-Allow-Origin", "https://ok.com"),
                        ("Access-Control-Allow-Headers", corsAllowHeadersValue pfOptions),
                        ("Access-Control-Allow-Methods", corsAllowMethodsValue pfOptions)] },
        store := [] } := by
  constructor
  · exact (preflight_exact_policy pfOptions pfReq "https://ok.com" [] 0 (.error .undef)
      rfl (by decide) (by decide) (fun a ha => by simp [pfOptions] at ha)
      (fun c hc => by simp [pfOptions] at hc) rfl).1 (by decide)
  · exact (preflight_exact_policy pfOptions
      { method := "OPTIONS", originHeader := some "https://ok.com" } "https://ok.com" [] 0
      (.error .undef) rfl (by decide) (by decide) (fun a ha => by simp [pfOptions] at ha)
      (fun c hc => by simp [pfOptions] at hc) rfl).2 rfl

/-- C9: a request without an Origin header is checked as the empty-string
origin; under an exact-string policy (neither wildcard nor empty) or a
list policy containing neither the wildcard nor the empty string, every
origin-less non-preflight call is denied 403 with the denial body before
rate limiting (store untouched), validation, parsing or forwarding (no
outbound call, no log event). -/
theorem originless_denied (options : NextProxyOptions) (req : NextRequest)
    (store : RateStore) (now : Int) (upstream : Except JsVal UpstreamResponse)
    (hor : req.originHeader = none)
    (hm : req.method ≠ "OPTIONS")
    (hauth : ∀ a, options.auth = some a → a req = true)
    (hcsrf : ∀ c, options.csrf = some c → c req = true)
    (hpol : (∃ s, options.allowOrigins = some (.str s) ∧ s ≠ "*" ∧ s ≠ "") ∨
            (∃ l, options.allowOrigins = some (.list l) ∧
              l.contains "*" = false ∧ l.contains "" = false)) :
    nextProxyHandler options req store now upstream =
      { outcome := .response { status := 403, body := some (corsDeniedBody options "") },
        store := store } := by
  have hio : isOriginAllowed options "" req = false := by
    rcases hpol with ⟨s, hp, hs1, hs2⟩ | ⟨l, hp, hw, he⟩
    · exact origin_str_denied options s hp hs1 hs2 "" req (fun h => hs2 h.symm)
    · cases hb : isOriginAllowed options "" req
      · rfl
      · rcases (origin_list_allowed_iff options l hp "" req).mp hb with h | h
        · rw [hw] at h; exact absurd h (by decide)
        · rw [he] at h; exact absurd h (by decide)
  rcases hA : options.auth with _ | a
  · rcases hC : options.csrf with _ | c
    · simp [nextProxyHandler, hA, hC, hor, hm, hio, jsOrStr]
    · simp [nextProxyHandler, hA, hC, hcsrf c hC, hor, hm, hio, jsOrStr]
  · rcases hC : options.csrf with _ | c
    · simp [nextProxyHandler, hA, hauth a hA, hC, hor, hm, hio, jsOrStr]
    · simp [nextProxyHandler, hA, hauth a hA, hC, hcsrf c hC, hor, hm, hio, jsOrStr]

/-- Witness for C9: a POST without an Origin header is denied 403 and the
rate store stays empty even though a rate limit is configured. -/
theorem originless_denied_witness :
    nextProxyHandler c9Options { method := "POST" } [] 0 (.error .undef) =
      { outcome := .response { status := 403, body := some (corsDeniedBody c9Options "") },
        store := [] } :=
  originless_denied c9Options { method := "POST" } [] 0 (.error .undef) rfl (by decide)
    (fun a ha => by simp [c9Options] at ha)
    (fun c hc => by simp [c9Options] at hc)
    (Or.inl ⟨"https://a.com", rfl, by decide, by decide⟩)

/-! String lemmas for the slash-join property of endpoint resolution. -/

theorem mk_data (s : String) : String.mk s.data = s := by cases s; rfl

theorem stripTrailingSlash_concat (b : String) : stripTrailingSlash (b ++ "/") = b := by
  unfold stripTrailingSlash
  have h : (b ++ "/").data = b.data ++ ['/'] := by
    rw [String.data_append]
  rw [h, List.getLast?_concat, List.dropLast_concat,
    if_pos (show some '/' = some '/' from rfl)]

theorem stripTrailingSlash_no_slash (b : String) (h : b.data.getLast? ≠ some '/') :
    stripTrailingSlash b = b := by
  unfold stripTrailingSlash
  rw [if_neg h]

theorem stripLeadingSlash_concat (e : String) : stripLeadingSlash ("/" ++ e) = e := by
  unfold stripLeadingSlash
  have h : ("/" ++ e).data = '/' :: e.data := by
    rw [String.data_append]; rfl
  rw [h]
  simp [mk_data]

theorem stripLeadingSlash_no_slash (e : String) (h : strBeginsWith "/" e = false) :
    stripLeadingSlash e = e := by
  unfold stripLeadingSlash
  unfold strBeginsWith at h
  have hd : ("/" : String).data = ['/'] := rfl
  rw [hd] at h
  cases he : e.data with
  | nil => rfl
  | cons c cs =>
      rw [he] at h
      have hc : ¬('/' : Char) = c := by
        intro hcc
        simp [charsBeginWith, hcc] at h
        exact h hcc
      show (if c = '/' then String.mk cs else e) = e
      rw [if_neg (fun h2 => hc h2.symm)]

/-- With no external rate guard, validate guard or log callback, the
pipeline tail records exactly the outbound call of the try block. -/
theorem handlerAfterRate_fetched_eq (options : NextProxyOptions) (req : NextRequest)
    (origin : String) (store : RateStore) (upstream : Except JsVal UpstreamResponse)
    (hratelim : options.rateLimit = none) (hvalidate : options.validate = none)
    (hlog : options.log = none) :
    (handlerAfterRate options req origin store upstream).fetched =
      (handlerTryBlock options req origin upstream).fetched := by
  cases ht : (handlerTryBlock options req origin upstream).result with
  | ok resp =>
      simp [handlerAfterRate, logEmit, hratelim, hvalidate, hlog, ht]
  | error err =>
      simp [handlerAfterRate, logEmit, hratelim, hvalidate, hlog, ht]

/-- C5: for every relative endpoint (one that fails the scheme test) that
survives the emptiness check: with no baseUrl configured (absent or the
JS-falsy empty string) the handler returns 400 with the
Relative-endpoint-without-baseUrl message and never issues the outbound
call; with a baseUrl configured the outbound endpoint is exactly the
baseUrl with one trailing slash stripped, then "/", then the endpoint
with one leading slash stripped; and that join never produces a double
slash: for a base without trailing slash and an endpoint without leading
slash, all four slash combinations resolve to base ++ "/" ++ endpoint. -/
theorem endpoint_resolution (options : NextProxyOptions) (req : NextRequest)
    (store : RateStore) (now : Int) (upstream : Except JsVal UpstreamResponse)
    (m ep : String)
    (hauth : options.auth = none) (hcsrf : options.csrf = none)
    (hmeth : req.method ≠ "OPTIONS")
    (horigin : isOriginAllowed options (jsOrStr req.originHeader "") req = true)
    (hrate : options.inMemoryRate = none) (hratelim : options.rateLimit = none)
    (hvalidate : options.validate = none) (hlog : options.log = none)
    (htr : options.transformRequest = none)
    (hsan : options.sanitize = none) (hmask : options.maskSensitiveData = none)
    (hbody : req.jsonBody = some (.jobj [("method", .jstr m), ("endpoint", .jstr ep)]))
    (hm2 : m ≠ "") (hep : ep ≠ "")
    (hrel : isAbsoluteUrl ep = false) :
    ((options.baseUrl = none ∨ options.baseUrl = some "") →
      nextProxyHandler options req store now upstream =
        { outcome := .response
            { status := 400, body := some (jsonErrorBody "Relative endpoint without baseUrl") },
          store := store }) ∧
    (∀ b, options.baseUrl = some b → b ≠ "" →
      ((nextProxyHandler options req store now upstream).fetched.map
          (fun r => r.endpoint)) =
        some (stripTrailingSlash b ++ "/" ++ stripLeadingSlash ep)) ∧
    (∀ b0 e0 : String, b0.data.getLast? ≠ some '/' → strBeginsWith "/" e0 = false →
      (stripTrailingSlash b0 ++ "/" ++ stripLeadingSlash e0 = b0 ++ "/" ++ e0) ∧
      (stripTrailingSlash (b0 ++ "/") ++ "/" ++ stripLeadingSlash e0 = b0 ++ "/" ++ e0) ∧
      (stripTrailingSlash b0 ++ "/" ++ stripLeadingSlash ("/" ++ e0) = b0 ++ "/" ++ e0) ∧
      (stripTrailingSlash (b0 ++ "/") ++ "/" ++ stripLeadingSlash ("/" ++ e0) = b0 ++ "/" ++ e0)) := by
  refine ⟨?_, ?_, ?_⟩
  · intro hb
    have hbu : jsOrStr options.baseUrl "" = "" := by
      rcases hb with hb | hb <;> simp [jsOrStr, hb]
    simp [nextProxyHandler, handlerAfterRate, handlerTryBlock, buildOutbound, logEmit,
      hauth, hcsrf, hmeth, horigin, hrate, hratelim, hvalidate, hlog, htr, hsan, hmask,
      hbody, hm2, hep, hrel, hbu, JsVal.getField, JsVal.isNullish, JsVal.truthy,
      JsVal.toStringJs, List.lookup]
  · intro b hb hbne
    have hrun : nextProxyHandler options req store now upstream =
        handlerAfterRate options req (jsOrStr req.originHeader "") store upstream := by
      simp [nextProxyHandler, hauth, hcsrf, hmeth, horigin, hrate]
    rw [hrun, handlerAfterRate_fetched_eq options req _ store upstream hratelim hvalidate hlog]
    cases upstream with
    | error e =>
        simp [handlerTryBlock, buildOutbound, jsOrStr, hauth, hcsrf, htr, hsan, hmask,
          hbody, hm2, hep, hrel, hb, hbne, JsVal.getField, JsVal.isNullish, JsVal.truthy,
          JsVal.toStringJs, List.lookup]
    | ok u =>
        simp [handlerTryBlock, buildOutbound, jsOrStr, hauth, hcsrf, htr, hsan, hmask,
          hbody, hm2, hep, hrel, hb, hbne, JsVal.getField, JsVal.isNullish, JsVal.truthy,
          JsVal.toStringJs, List.lookup]
  · intro b0 e0 hb0 he0
    refine ⟨?_, ?_, ?_, ?_⟩
    · rw [stripTrailingSlash_no_slash b0 hb0, stripLeadingSlash_no_slash e0 he0]
    · rw [stripTrailingSlash_concat b0, stripLeadingSlash_no_slash e0 he0]
    · rw [stripTrailingSlash_no_slash b0 hb0, stripLeadingSlash_concat e0]
    · rw [stripTrailingSlash_concat b0, stripLeadingSlash_concat e0]

/-- Witness for C5: without baseUrl the call ends 400 and nothing is
fetched; with the example baseUrl the outbound endpoint is exactly
https://api.example.com/todos/1; and a slash-combination instance. -/
theorem endpoint_resolution_witness :
    nextProxyHandler {} c5Req [] 0 (.error .undef) =
      { outcome := .response
          { status := 400, body := some (jsonErrorBody "Relative endpoint without baseUrl") },
        store := [] } ∧
    ((nextProxyHandler c5Options c5Req [] 0 (.error .undef)).fetched.map
        (fun r => r.endpoint)) = some "https://api.example.com/todos/1" ∧
    stripTrailingSlash ("https://api.example.com" ++ "/") ++ "/" ++
        stripLeadingSlash ("/" ++ "todos/1") =
      "https://api.example.com" ++ "/" ++ "todos/1" := by
  refine ⟨?_, ?_, ?_⟩
  · exact (endpoint_resolution {} c5Req [] 0 (.error .undef) "GET" "/todos/1"
      rfl rfl (by decide) rfl rfl rfl rfl rfl rfl rfl rfl rfl
      (by decide) (by decide) (by decide)).1 (Or.inl rfl)
  · have h := (endpoint_resolution c5Options c5Req [] 0 (.error .undef) "GET" "/todos/1"
      rfl rfl (by decide) rfl rfl rfl rfl rfl rfl rfl rfl rfl
      (by decide) (by decide) (by decide)).2.1 "https://api.example.com" rfl (by decide)
    rw [h]
    decide
  · exact ((endpoint_resolution c5Options c5Req [] 0 (.error .undef) "GET" "/todos/1"
      rfl rfl (by decide) rfl rfl rfl rfl rfl rfl rfl rfl rfl
      (by decide) (by decide) (by decide)).2.2 "https://api.example.com" "todos/1"
      (by decide) (by decide)).2.2.2

/-- C6 counterexample: with max = 0, the (M+1)-th = first call of the
window is allowed rather than denied; and with max = 1, a second call
made exactly windowMs after the window start (waiting exactly W) is still
denied — the stored expiry must be strictly exceeded before a new window
starts. -/
theorem rate_window_boundary_counterexample :
    (applyInMemoryRate reqPlain (cfgK 1000 0) [] 0).1 = true ∧
    (applyInMemoryRate reqPlain (cfgK 1000 1) [] 0).2 = [("k", ⟨1, 1000⟩)] ∧
    (applyInMemoryRate reqPlain (cfgK 1000 1) [("k", ⟨1, 1000⟩)] 1000).1 = false :=
  ⟨rfl, rfl, rfl⟩

/-- C6 (amended): for a rate limit {windowMs := W, max := M} with M ≥ 1
and a fixed key, in a run of calls all within one window (each at most W
after the first), the first M calls pass the rate guard, the (M+1)-th is
denied without mutating the store, the handler maps that denial to a 429
response, and any later call strictly more than W after the window start
begins a fresh window with count 1 and is allowed. -/
theorem rate_sequence_window (options : NextProxyOptions) (req : NextRequest)
    (cfg : InMemoryRateCfg) (times : Nat → Int) (M : Nat)
    (upstream : Except JsVal UpstreamResponse)
    (hcfg : options.inMemoryRate = some cfg)
    (hmax : cfg.max = (M : Int)) (hM : 1 ≤ M)
    (hwin : ∀ i, 1 ≤ i → i ≤ M → times i ≤ times 0 + cfg.windowMs)
    (hauth : options.auth = none) (hcsrf : options.csrf = none)
    (hmeth : req.method ≠ "OPTIONS")
    (horigin : isOriginAllowed options (jsOrStr req.originHeader "") req = true) :
    (∀ i, i < M →
      (applyInMemoryRate req cfg (rateRuns cfg (fun n => (req, times n)) i) (times i)).1 = true) ∧
    applyInMemoryRate req cfg (rateRuns cfg (fun n => (req, times n)) M) (times M) =
      (false, rateRuns cfg (fun n => (req, times n)) M) ∧
    nextProxyHandler options req (rateRuns cfg (fun n => (req, times n)) M) (times M) upstream =
      { outcome := .response { status := 429, body := some (jsonErrorBody "Rate limit exceeded") },
        store := rateRuns cfg (fun n => (req, times n)) M } ∧
    (∀ t', times 0 + cfg.windowMs < t' →
      applyInMemoryRate req cfg (rateRuns cfg (fun n => (req, times n)) (M + 1)) t' =
        (true, storeSet (rateRuns cfg (fun n => (req, times n)) (M + 1)) (rateKeyOf req cfg)
          ⟨1, t' + cfg.windowMs⟩)) := by
  have hstate : ∀ i, 1 ≤ i → i ≤ M →
      (rateRuns cfg (fun n => (req, times n)) i).lookup (rateKeyOf req cfg) =
        some ⟨(i : Int), times 0 + cfg.windowMs⟩ := by
    intro i
    induction i with
    | zero => intro h1 _; omega
    | succ i ih =>
        intro _ hle
        by_cases hi : i = 0
        · subst hi
          simp [rateRuns, applyInMemoryRate, List.lookup, lookup_storeSet_self]
        · have h1i : 1 ≤ i := by omega
          have hiM : i ≤ M := by omega
          have hprev := ih h1i hiM
          have htime : times i ≤ times 0 + cfg.windowMs := hwin i h1i hiM
          have hcnt : (i : Int) < cfg.max := by
            rw [hmax]
            exact_mod_cast (by omega : i < M)
          have hstep : rateRuns cfg (fun n => (req, times n)) (i + 1) =
              storeSet (rateRuns cfg (fun n => (req, times n)) i) (rateKeyOf req cfg)
                ⟨(i : Int) + 1, times 0 + cfg.windowMs⟩ := by
            simp [rateRuns, applyInMemoryRate, hprev, not_lt.mpr htime, not_le.mpr hcnt]
          rw [hstep, lookup_storeSet_self]
          push_cast
          ring_nf
  refine ⟨?_, ?_, ?_, ?_⟩
  · intro i hi
    by_cases hi0 : i = 0
    · subst hi0
      simp [rateRuns, applyInMemoryRate, List.lookup]
    · have h1i : 1 ≤ i := by omega
      have hiM : i ≤ M := by omega
      have hprev := hstate i h1i hiM
      have htime : times i ≤ times 0 + cfg.windowMs := hwin i h1i hiM
      have hcnt : (i : Int) < cfg.max := by
        rw [hmax]
        exact_mod_cast (by omega : i < M)
      simp [applyInMemoryRate, hprev, not_lt.mpr htime, not_le.mpr hcnt]
  · have hprev := hstate M hM (le_refl M)
    have htime : times M ≤ times 0 + cfg.windowMs := hwin M hM (le_refl M)
    have hcnt : cfg.max ≤ (M : Int) := le_of_eq hmax
    simp [applyInMemoryRate, hprev, not_lt.mpr htime, hcnt]
  · have hden : applyInMemoryRate req cfg (rateRuns cfg (fun n => (req, times n)) M) (times M) =
        (false, rateRuns cfg (fun n => (req, times n)) M) := by
      have hprev := hstate M hM (le_refl M)
      have htime : times M ≤ times 0 + cfg.windowMs := hwin M hM (le_refl M)
      have hcnt : cfg.max ≤ (M : Int) := le_of_eq hmax
      simp [applyInMemoryRate, hprev, not_lt.mpr htime, hcnt]
    simp [nextProxyHandler, hauth, hcsrf, hmeth, horigin, hcfg, hden]
  · intro t' ht'
    have hS : rateRuns cfg (fun n => (req, times n)) (M + 1) =
        rateRuns cfg (fun n => (req, times n)) M := by
      have hprev := hstate M hM (le_refl M)
      have htime : times M ≤ times 0 + cfg.windowMs := hwin M hM (le_refl M)
      have hcnt : cfg.max ≤ (M : Int) := le_of_eq hmax
      simp [rateRuns, applyInMemoryRate, hprev, not_lt.mpr htime, hcnt]
    rw [hS]
    have hprev := hstate M hM (le_refl M)
    rw [hS] at *
    simp [applyInMemoryRate, hprev, ht']

/-- Witness for C6: windowMs = 100, max = 2, calls at times 0, 1, 2: the
second call passes, the third is denied and the handler returns 429, and
a call at time 101 (strictly past the window) starts a fresh window. -/
theorem rate_sequence_window_witness :
    (applyInMemoryRate reqPlain (cfgK 100 2)
      (rateRuns (cfgK 100 2) (fun n => (reqPlain, (n : Int))) 1) 1).1 = true ∧
    applyInMemoryRate reqPlain (cfgK 100 2)
        (rateRuns (cfgK 100 2) (fun n => (reqPlain, (n : Int))) 2) 2 =
      (false, rateRuns (cfgK 100 2) (fun n => (reqPlain, (n : Int))) 2) ∧
    nextProxyHandler { inMemoryRate := some (cfgK 100 2) } reqPlain
        (rateRuns (cfgK 100 2) (fun n => (reqPlain, (n : Int))) 2) 2 (.error .undef) =
      { outcome := .response { status := 429, body := some (jsonErrorBody "Rate limit exceeded") },
        store := rateRuns (cfgK 100 2) (fun n => (reqPlain, (n : Int))) 2 } ∧
    applyInMemoryRate reqPlain (cfgK 100 2)
        (rateRuns (cfgK 100 2) (fun n => (reqPlain, (n : Int))) 3) 101 =
      (true, storeSet (rateRuns (cfgK 100 2) (fun n => (reqPlain, (n : Int))) 3)
        (rateKeyOf reqPlain (cfgK 100 2)) ⟨1, 101 + (cfgK 100 2).windowMs⟩) := by
  have h := rate_sequence_window { inMemoryRate := some (cfgK 100 2) } reqPlain
    (cfgK 100 2) (fun n => (n : Int)) 2 (.error .undef) rfl rfl (by decide)
    (fun i h1 h2 => by simp [cfgK]; omega) rfl rfl (by decide) rfl
  exact ⟨h.1 1 (by decide), h.2.1, h.2.2.1, h.2.2.2 101 (by simp [cfgK])⟩

/-- C7 counterexample: when both the JSON and the text parse fail, the
parsed result is exactly the binary descriptor object, and the configured
transformResponse hook IS invoked on it — the final body is the hook's
output, not the descriptor — contradicting the claim that the hook runs
only on results that are not the binary descriptor. -/
theorem binary_descriptor_transformed :
    parseUpstreamBody (.binary 7) =
      .jobj [("message", .jstr "Unprocessable response (binary)"), ("length", .jnum 7)] ∧
    (nextProxyHandler c7Options c7Req [] 0 (.ok ⟨200, .binary 7⟩)).outcome =
      .response { status := 200, body := some (.jobj [("tag", .jnum 1)]) } := ⟨rfl, rfl⟩

/-- C7 (amended): after the JSON → text → binary fallback parse, the
configured transformResponse hook is invoked (its return value becoming
the final body) exactly when the parsed result is a non-null object —
which includes JSON objects, JSON arrays AND the binary descriptor;
non-object results (text among them) are returned untransformed. -/
theorem transformResponse_condition (options : NextProxyOptions) (req : NextRequest)
    (store : RateStore) (now : Int) (u : UpstreamResponse)
    (m ep : String) (tf : JsVal → Except JsVal JsVal)
    (hauth : options.auth = none) (hcsrf : options.csrf = none)
    (hmeth : req.method ≠ "OPTIONS")
    (horigin : isOriginAllowed options (jsOrStr req.originHeader "") req = true)
    (hrate : options.inMemoryRate = none) (hratelim : options.rateLimit = none)
    (hvalidate : options.validate = none) (hlog : options.log = none)
    (hmon : options.monitor = none)
    (htr : options.transformRequest = none)
    (hsan : options.sanitize = none) (hmask : options.maskSensitiveData = none)
    (htf : options.transformResponse = some tf)
    (hbody : req.jsonBody = some (.jobj [("method", .jstr m), ("endpoint", .jstr ep)]))
    (hm2 : m ≠ "") (hep : ep ≠ "")
    (habs : isAbsoluteUrl ep = true) :
    ((parseUpstreamBody u.body).isObjectNonNull = true →
      ∀ v, tf (parseUpstreamBody u.body) = .ok v →
        responseBodyOf (nextProxyHandler options req store now (.ok u)).outcome = some v) ∧
    ((parseUpstreamBody u.body).isObjectNonNull = false →
      responseBodyOf (nextProxyHandler options req store now (.ok u)).outcome =
        some (parseUpstreamBody u.body)) := by
  have hrun : nextProxyHandler options req store now (.ok u) =
      handlerAfterRate options req (jsOrStr req.originHeader "") store (.ok u) := by
    simp [nextProxyHandler, hauth, hcsrf, hmeth, horigin, hrate]
  constructor
  · intro hobj v hv
    rw [hrun]
    by_cases hok : u.isOk
    · simp [handlerAfterRate, handlerTryBlock, buildOutbound,
        shapeAndRespond, responseBodyOf, logEmit, hratelim, hvalidate, hlog, hmon, htr,
        hsan, hmask, htf, hbody, hm2, hep, habs, hobj, hv, hok, JsVal.getField,
        JsVal.isNullish, JsVal.truthy, JsVal.toStringJs, List.lookup]
    · simp [handlerAfterRate, handlerTryBlock, buildOutbound,
        shapeAndRespond, responseBodyOf, logEmit, hratelim, hvalidate, hlog, hmon, htr,
        hsan, hmask, htf, hbody, hm2, hep, habs, hobj, hv, hok, JsVal.getField,
        JsVal.isNullish, JsVal.truthy, JsVal.toStringJs, List.lookup]
  · intro hobj
    rw [hrun]
    by_cases hok : u.isOk
    · simp [handlerAfterRate, handlerTryBlock, buildOutbound,
        shapeAndRespond, responseBodyOf, logEmit, hratelim, hvalidate, hlog, hmon, htr,
        hsan, hmask, htf, hbody, hm2, hep, habs, hobj, hok, JsVal.getField,
        JsVal.isNullish, JsVal.truthy, JsVal.toStringJs, List.lookup]
    · simp [handlerAfterRate, handlerTryBlock, buildOutbound,
        shapeAndRespond, responseBodyOf, logEmit, hratelim, hvalidate, hlog, hmon, htr,
        hsan, hmask, htf, hbody, hm2, hep, habs, hobj, hok, JsVal.getField,
        JsVal.isNullish, JsVal.truthy, JsVal.toStringJs, List.lookup]

/-- Witness for C7: an object body is transformed; a text body passes
through untransformed. -/
theorem transformResponse_condition_witness :
    responseBodyOf (nextProxyHandler c7Options c7Req [] 0
        (.ok ⟨200, .json (.jobj [("a", .jnum 2)])⟩)).outcome =
      some (.jobj [("tag", .jnum 1)]) ∧
    responseBodyOf (nextProxyHandler c7Options c7Req [] 0
        (.ok ⟨200, .text "plain"⟩)).outcome = some (.jstr "plain") := by
  constructor
  · exact (transformResponse_condition c7Options c7Req [] 0 ⟨200, .json (.jobj [("a", .jnum 2)])⟩
      "GET" "https://u.example/x" (fun _ => .ok (.jobj [("tag", .jnum 1)]))
      rfl rfl (by decide) rfl rfl rfl rfl rfl rfl rfl rfl rfl rfl rfl
      (by decide) (by decide) (by decide)).1 rfl (.jobj [("tag", .jnum 1)]) rfl
  · have h := (transformResponse_condition c7Options c7Req [] 0 ⟨200, .text "plain"⟩
      "GET" "https://u.example/x" (fun _ => .ok (.jobj [("tag", .jnum 1)]))
      rfl rfl (by decide) rfl rfl rfl rfl rfl rfl rfl rfl rfl rfl rfl
      (by decide) (by decide) (by decide)).2 rfl
    exact h

/-- C8 counterexample: the request-event emission sits before the try
block, so a log callback that throws on the request event escapes the
handler as an exception instead of being caught and mapped to 500. -/
theorem request_log_throw_escapes :
    (nextProxyHandler c8Options reqPlain [] 0 (.error .undef)).outcome =
      .raised (.jstr "boom") := rfl

/-- When the configured log callback never throws, log emission never
reports an exception. -/
theorem logEmit_no_throw (log : Option (LogInfo → Except JsVal Unit))
    (h : ∀ f, log = some f → ∀ i, f i = .ok ()) (e : LogInfo) :
    (logEmit log e).2 = none := by
  cases hl : log with
  | none => rfl
  | some f => simp [logEmit, h f hl e]

/-- Every path of the pipeline tail ends in a response (never an escaped
exception) when the log callback does not throw: everything the try block
does is caught, and the log-emission sites outside it stay silent. -/
theorem handlerAfterRate_no_raise (options : NextProxyOptions) (req : NextRequest)
    (origin : String) (store : RateStore) (upstream : Except JsVal UpstreamResponse)
    (hlog : ∀ f, options.log = some f → ∀ i, f i = .ok ()) :
    (handlerAfterRate options req origin store upstream).outcome.didRaise = false := by
  unfold handlerAfterRate
  split
  · rfl
  · split
    · rfl
    · cases hem : logEmit options.log (requestEventInfo req origin) with
      | mk evs o =>
          have ho : o = none := by
            have h2 := logEmit_no_throw options.log hlog (requestEventInfo req origin)
            rw [hem] at h2
            exact h2
          subst ho
          cases ht : (handlerTryBlock options req origin upstream).result with
          | ok resp => simp [ht, HandlerOutcome.didRaise]
          | error err =>
              cases hem2 : logEmit options.log (errorEventInfo req origin err) with
              | mk evs2 o2 =>
                  have ho2 : o2 = none := by
                    have h2 := logEmit_no_throw options.log hlog (errorEventInfo req origin err)
                    rw [hem2] at h2
                    exact h2
                  subst ho2
                  simp [ht, hem2, HandlerOutcome.didRaise]

/-- C8 (amended): failures thrown inside the try block — steps 8 to 10:
inbound parse and request transformation, the outbound call, response
shaping, response logging and monitoring — are caught at the pipeline
boundary; provided the log callback itself never throws, no exception
escapes the handler, and a rejected outbound fetch yields a 500 response
whose body holds the failure detail, with a request event followed by an
error event delivered to the log.  (The request-event emission of step 7
is OUTSIDE the guarded region: a throwing log callback there escapes, as
the counterexample shows.) -/
theorem pipeline_failures_caught :
    (∀ options req store now upstream,
      (∀ f, (options : NextProxyOptions).log = some f → ∀ i, f i = .ok ()) →
      (nextProxyHandler options req store now upstream).outcome.didRaise = false) ∧
    (∀ options req store now e m ep f,
      (options : NextProxyOptions).auth = none → options.csrf = none →
      (req : NextRequest).method ≠ "OPTIONS" →
      isOriginAllowed options (jsOrStr req.originHeader "") req = true →
      options.inMemoryRate = none → options.rateLimit = none →
      options.validate = none →
      options.log = some f → (∀ i, f i = .ok ()) →
      options.transformRequest = none →
      options.sanitize = none → options.maskSensitiveData = none →
      req.jsonBody = some (.jobj [("method", .jstr m), ("endpoint", .jstr ep)]) →
      m ≠ "" → ep ≠ "" → isAbsoluteUrl ep = true →
      (nextProxyHandler options req store now (.error e)).outcome =
        .response { status := 500, body := some (.jobj [("error", jsErrOr e)]) } ∧
      (nextProxyHandler options req store now (.error e)).events.map (fun ev => ev.type) =
        ["request", "error"]) := by
  constructor
  · intro options req store now upstream hlog
    unfold nextProxyHandler
    split
    · cases hem : logEmit options.log
          (guardFailEventInfo req (jsOrStr req.originHeader "") 401 "Unauthorized (auth)") with
      | mk evs o =>
          have ho : o = none := by
            have h2 := logEmit_no_throw options.log hlog
              (guardFailEventInfo req (jsOrStr req.originHeader "") 401 "Unauthorized (auth)")
            rw [hem] at h2
            exact h2
          subst ho
          simp [hem, HandlerOutcome.didRaise]
    · split
      · cases hem : logEmit options.log
            (guardFailEventInfo req (jsOrStr req.originHeader "") 403 "Forbidden (csrf/xss)") with
        | mk evs o =>
            have ho : o = none := by
              have h2 := logEmit_no_throw options.log hlog
                (guardFailEventInfo req (jsOrStr req.originHeader "") 403 "Forbidden (csrf/xss)")
              rw [hem] at h2
              exact h2
            subst ho
            simp [hem, HandlerOutcome.didRaise]
      · dsimp only
        split
        · split
          · rfl
          · rfl
        · split
          · rfl
          · split
            · split
              · rfl
              · exact handlerAfterRate_no_raise options req _ _ _ hlog
            · exact handlerAfterRate_no_raise options req _ _ _ hlog
  · intro options req store now e m ep f hauth hcsrf hmeth horigin hrate hratelim
      hvalidate hlog hf htr hsan hmask hbody hm2 hep habs
    have hrun : nextProxyHandler options req store now (.error e) =
        handlerAfterRate options req (jsOrStr req.originHeader "") store (.error e) := by
      simp [nextProxyHandler, hauth, hcsrf, hmeth, horigin, hrate]
    rw [hrun]
    constructor
    · simp [handlerAfterRate, handlerTryBlock, buildOutbound, logEmit, hratelim,
        hvalidate, hlog, hf, htr, hsan, hmask, hbody, hm2, hep, habs,
        JsVal.getField, JsVal.isNullish, JsVal.truthy, JsVal.toStringJs, List.lookup]
    · simp [handlerAfterRate, handlerTryBlock, buildOutbound, logEmit, hratelim,
        hvalidate, hlog, hf, htr, hsan, hmask, hbody, hm2, hep, habs,
        requestEventInfo, errorEventInfo,
        JsVal.getField, JsVal.isNullish, JsVal.truthy, JsVal.toStringJs, List.lookup]

/-- Witness for C8: with a benign log callback nothing escapes, and a
rejected fetch maps to 500 with the failure detail and a
request-then-error event sequence. -/
theorem pipeline_failures_caught_witness :
    (nextProxyHandler { log := some (fun _ => .ok ()) } c7Req [] 0
        (.error (.jstr "ECONNREFUSED"))).outcome.didRaise = false ∧
    (nextProxyHandler { log := some (fun _ => .ok ()) } c7Req [] 0
        (.error (.jstr "ECONNREFUSED"))).outcome =
      .response { status := 500, body := some (.jobj [("error", jsErrOr (.jstr "ECONNREFUSED"))]) } ∧
    (nextProxyHandler { log := some (fun _ => .ok ()) } c7Req [] 0
        (.error (.jstr "ECONNREFUSED"))).events.map (fun ev => ev.type) =
      ["request", "error"] := by
  have h2 := pipeline_failures_caught.2 { log := some (fun _ => .ok ()) } c7Req [] 0
    (.jstr "ECONNREFUSED") "GET" "https://u.example/x" (fun _ => .ok ())
    rfl rfl (by decide) rfl rfl rfl rfl rfl (fun _ => rfl) rfl rfl rfl rfl
    (by decide) (by decide) (by decide)
  refine ⟨?_, h2.1, h2.2⟩
  exact pipeline_failures_caught.1 { log := some (fun _ => .ok ()) } c7Req [] 0
    (.error (.jstr "ECONNREFUSED")) (fun f hf i => by cases hf; rfl)
